import Mathlib

set_option maxHeartbeats 1000000

/- Verification of the Connect-Four server core (src/server.js): board engine,
   session state machine, rematch negotiation and series statistics.
   The board is the 6x7 grid of src/server.js, rows indexed 0..5 top to bottom
   and columns 0..6 left to right.  Cells hold the empty string or a color. -/

inductive Color : Type
  | red
  | yellow
deriving DecidableEq

/-- The turn flip at the end of a non-terminal move:
    color === "red" ? "yellow" : "red". -/
def oppColor : Color → Color
  | Color.red => Color.yellow
  | Color.yellow => Color.red

inductive Cell : Type
  | empty
  | stone (c : Color)
deriving DecidableEq

/-- game.winner takes null, "red", "yellow" or "draw"; the null case is
    modelled with Option. -/
inductive Winner : Type
  | color (c : Color)
  | draw
deriving DecidableEq

inductive Status : Type
  | waiting
  | playing
  | finished
  | abandoned
deriving DecidableEq

abbrev Board := List (List Cell)

/-- emptyBoard from src/server.js: Array(6).fill().map(() => Array(7).fill("")). -/
def emptyBoard : Board := List.replicate 6 (List.replicate 7 Cell.empty)

/-- Raw array access board[r][c]; out-of-range access yields the empty cell,
    matching the fact that the walks below test bounds before reading. -/
def cellAtRaw (b : Board) (r c : Int) : Cell :=
  (b.getD r.toNat []).getD c.toNat Cell.empty

/-- The while-loop condition of the walks in checkWin and getWinningCells:
    r >= 0 && r < 6 && c >= 0 && c < 7 && board[r][c] === player. -/
def matchCell (b : Board) (p : Color) (r c : Int) : Bool :=
  if 0 ≤ r ∧ r < 6 ∧ 0 ≤ c ∧ c < 7 then cellAtRaw b r c == Cell.stone p else false

/-- The directional while loop of checkWin: starting at (r, c) it counts the
    consecutive matching cells stepping by (dx, dy).  Fuel 7 is exact: every
    step moves one row or one column, and a monotone ray meets at most 7
    in-bounds cells, so the loop never runs more than 7 iterations. -/
def walkCount (b : Board) (p : Color) (dx dy : Int) : Nat → Int → Int → Nat
  | 0, _, _ => 0
  | fuel + 1, r, c =>
      if matchCell b p r c then walkCount b p dx dy fuel (r + dx) (c + dy) + 1 else 0

/-- The dirs table shared by checkWin and getWinningCells: for each axis the
    two opposite unit directions. -/
def dirPairs : List ((Int × Int) × (Int × Int)) :=
  [((0, 1), (0, -1)), ((1, 0), (-1, 0)), ((1, 1), (-1, -1)), ((1, -1), (-1, 1))]

/-- checkWin(row, col, board, player): count = 1 plus the two directional
    walks, win when any axis reaches 4. -/
def checkWin (row col : Int) (b : Board) (p : Color) : Bool :=
  dirPairs.any fun d =>
    decide (4 ≤ 1 + walkCount b p d.1.1 d.1.2 7 (row + d.1.1) (col + d.1.2)
                  + walkCount b p d.2.1 d.2.2 7 (row + d.2.1) (col + d.2.2))

/-- The cell-collecting variant of the directional walk in getWinningCells. -/
def collectDir (b : Board) (p : Color) (dx dy : Int) : Nat → Int → Int → List (Int × Int)
  | 0, _, _ => []
  | fuel + 1, r, c =>
      if matchCell b p r c then (r, c) :: collectDir b p dx dy fuel (r + dx) (c + dy) else []

/-- The cells array built for one axis pair in getWinningCells: the placed
    cell, then the walk along the first direction, then the walk along the
    second. -/
def cellsForPair (row col : Int) (b : Board) (p : Color)
    (d : (Int × Int) × (Int × Int)) : List (Int × Int) :=
  (row, col) :: (collectDir b p d.1.1 d.1.2 7 (row + d.1.1) (col + d.1.2)
    ++ collectDir b p d.2.1 d.2.2 7 (row + d.2.1) (col + d.2.2))

/-- The tail of getWinningCells for an axis whose cells array reached length
    4: firstCell = cells[0], lastCell = cells[cells.length - 1],
    dx = Math.sign(last.row - first.row), dy likewise, and the result steps
    from firstCell by (dx, dy) four times. -/
def fourFrom (cells : List (Int × Int)) : List (Int × Int) :=
  let firstCell := cells.headD (0, 0)
  let lastCell := cells.getLastD (0, 0)
  let dx := (lastCell.1 - firstCell.1).sign
  let dy := (lastCell.2 - firstCell.2).sign
  (List.range 4).map fun i => (firstCell.1 + dx * (i : Int), firstCell.2 + dy * (i : Int))

/-- getWinningCells(row, col, board, player): the first axis pair whose cells
    array has length at least 4 produces the result; otherwise []. -/
def getWinningCells (row col : Int) (b : Board) (p : Color) : List (Int × Int) :=
  match dirPairs.find? (fun d => decide (4 ≤ (cellsForPair row col b p d).length)) with
  | some d => fourFrom (cellsForPair row col b p d)
  | none => []

/-- isBoardFull(board): board[0].every(cell => cell !== ""). -/
def isBoardFull (b : Board) : Bool :=
  (b.getD 0 []).all fun cell => !(cell == Cell.empty)

/-- The drop scan of the makeMove handler: for r = 5 down to 0, the first row
    with an empty cell in the column, none when the column is full. -/
def findRow (b : Board) (col : Int) : Option Int :=
  ([5, 4, 3, 2, 1, 0] : List Int).find? fun r => cellAtRaw b r col == Cell.empty

/-- The single board mutation game.board[row][col] = color. -/
def setCell (b : Board) (r c : Int) (v : Cell) : Board :=
  b.set r.toNat ((b.getD r.toNat []).set c.toNat v)

/- Spec-side notion for C6: some axis holds a window of four consecutive
   same-color cells one of which is the given cell. -/

/-- The four axis unit directions. -/
def primDirs : List (Int × Int) := [(0, 1), (1, 0), (1, 1), (1, -1)]

/-- Some axis contains at least 4 consecutive cells of color p passing
    through (row, col): a window of four consecutive cells along an axis
    direction, all holding p, whose j-th cell is (row, col). -/
def hasFourThrough (b : Board) (row col : Int) (p : Color) : Prop :=
  ∃ d ∈ primDirs, ∃ j : Nat, j < 4 ∧ ∀ i : Nat, i < 4 →
    matchCell b p (row + ((i : Int) - (j : Int)) * d.1)
      (col + ((i : Int) - (j : Int)) * d.2) = true

instance (b : Board) (row col : Int) (p : Color) :
    Decidable (hasFourThrough b row col p) := by
  unfold hasFourThrough
  infer_instance

/- Concrete boards used to evaluate the board engine. -/

def e7 : List Cell := List.replicate 7 Cell.empty

/-- Board reached by red playing columns 0, 2, 3, 1 while yellow stacks
    column 6; the last red disc landed at (5, 1), interior to the winning
    run (5,0)..(5,3). -/
def c1Board : Board :=
  [e7, e7, e7,
   [Cell.empty, Cell.empty, Cell.empty, Cell.empty, Cell.empty, Cell.empty,
    Cell.stone Color.yellow],
   [Cell.empty, Cell.empty, Cell.empty, Cell.empty, Cell.empty, Cell.empty,
    Cell.stone Color.yellow],
   [Cell.stone Color.red, Cell.stone Color.red, Cell.stone Color.red, Cell.stone Color.red,
    Cell.empty, Cell.empty, Cell.stone Color.yellow]]

/-- C1: code bug.  On the board where red just completed the run
    (5,0)..(5,3) by playing (5,1), checkWin is true, yet getWinningCells
    returns the segment starting at the placed cell and stepping toward the
    short end of the walk: it contains the off-board coordinates (5,-1) and
    (5,-2), which do not hold the winning color, instead of the four run
    cells. -/
theorem getWinningCells_offboard_cells :
    checkWin 5 1 c1Board Color.red = true ∧
    getWinningCells 5 1 c1Board Color.red = [(5, 1), (5, 0), (5, -1), (5, -2)] ∧
    matchCell c1Board Color.red 5 (-1) = false ∧
    matchCell c1Board Color.red 5 (-2) = false := by
  decide

/-- Board with only three red cells, at (5,0), (5,1) and (5,2). -/
def c6Board : Board :=
  [e7, e7, e7, e7, e7,
   [Cell.stone Color.red, Cell.stone Color.red, Cell.stone Color.red,
    Cell.empty, Cell.empty, Cell.empty, Cell.empty]]

/-- C6 counterexample: checkWin never reads the cell (row, col) itself, so on
    a board where (5,3) is empty but (5,0)..(5,2) are red, checkWin 5 3 is
    true although no axis holds four consecutive red cells through (5,3). -/
theorem checkWin_true_without_four :
    cellAtRaw c6Board 5 3 = Cell.empty ∧
    checkWin 5 3 c6Board Color.red = true ∧
    ¬ hasFourThrough c6Board 5 3 Color.red := by
  decide

/- Walk lemmas: soundness (every counted cell matches) and completeness
   (a prefix of matching cells bounds the count from below). -/

theorem walkCount_sound (b : Board) (p : Color) (dx dy : Int) :
    ∀ (fuel : Nat) (r c : Int) (i : Nat), i < walkCount b p dx dy fuel r c →
      matchCell b p (r + (i : Int) * dx) (c + (i : Int) * dy) = true := by
  intro fuel
  induction fuel with
  | zero =>
      intro r c i h
      simp [walkCount] at h
  | succ n ih =>
      intro r c i h
      rw [walkCount] at h
      by_cases hm : matchCell b p r c = true
      · rw [if_pos hm] at h
        cases i with
        | zero => simpa using hm
        | succ k =>
            have hk : k < walkCount b p dx dy n (r + dx) (c + dy) := by omega
            have hmk := ih (r + dx) (c + dy) k hk
            have e1 : r + dx + (k : Int) * dx = r + ((k : Int) + 1) * dx := by ring
            have e2 : c + dy + (k : Int) * dy = c + ((k : Int) + 1) * dy := by ring
            rw [e1, e2] at hmk
            have e3 : ((k + 1 : Nat) : Int) = (k : Int) + 1 := by push_cast; ring
            rw [e3]
            exact hmk
      · rw [if_neg hm] at h
        omega

theorem walkCount_complete (b : Board) (p : Color) (dx dy : Int) :
    ∀ (fuel k : Nat) (r c : Int), k ≤ fuel →
      (∀ i : Nat, i < k → matchCell b p (r + (i : Int) * dx) (c + (i : Int) * dy) = true) →
      k ≤ walkCount b p dx dy fuel r c := by
  intro fuel
  induction fuel with
  | zero =>
      intro k r c hk _
      omega
  | succ n ih =>
      intro k r c hk hall
      cases k with
      | zero => exact Nat.zero_le _
      | succ m =>
          have h0 : matchCell b p r c = true := by
            have := hall 0 (by omega)
            simpa using this
          rw [walkCount, if_pos h0]
          have hm : m ≤ walkCount b p dx dy n (r + dx) (c + dy) := by
            apply ih m (r + dx) (c + dy) (by omega)
            intro i hi
            have hh := hall (i + 1) (by omega)
            have e1 : r + ((i + 1 : Nat) : Int) * dx = r + dx + (i : Int) * dx := by
              push_cast; ring
            have e2 : c + ((i + 1 : Nat) : Int) * dy = c + dy + (i : Int) * dy := by
              push_cast; ring
            rw [e1, e2] at hh
            exact hh
          omega


/-- From an axis count of at least 4 through a matching centre cell, extract a
    window of four consecutive matching cells containing the centre. -/
theorem window_of_count (b : Board) (p : Color) (row col dx dy : Int)
    (h0 : matchCell b p row col = true)
    (h4 : 4 ≤ 1 + walkCount b p dx dy 7 (row + dx) (col + dy)
            + walkCount b p (-dx) (-dy) 7 (row + -dx) (col + -dy)) :
    ∃ j : Nat, j < 4 ∧ ∀ i : Nat, i < 4 →
      matchCell b p (row + ((i : Int) - (j : Int)) * dx)
        (col + ((i : Int) - (j : Int)) * dy) = true := by
  set wp := walkCount b p dx dy 7 (row + dx) (col + dy) with hwp
  set wn := walkCount b p (-dx) (-dy) 7 (row + -dx) (col + -dy) with hwn
  refine ⟨min wn 3, by omega, ?_⟩
  intro i hi4
  rcases lt_trichotomy i (min wn 3) with hlt | heq | hgt
  · -- the cell lies on the negative-direction side of the centre
    have hidx : min wn 3 - i - 1 < wn := by omega
    have hs := walkCount_sound b p (-dx) (-dy) 7 (row + -dx) (col + -dy) _ hidx
    have ht : ((min wn 3 - i - 1 : Nat) : Int) = ((min wn 3 : Nat) : Int) - (i : Int) - 1 := by
      omega
    have e1 : row + -dx + ((min wn 3 - i - 1 : Nat) : Int) * -dx
        = row + ((i : Int) - ((min wn 3 : Nat) : Int)) * dx := by
      rw [ht]; ring
    have e2 : col + -dy + ((min wn 3 - i - 1 : Nat) : Int) * -dy
        = col + ((i : Int) - ((min wn 3 : Nat) : Int)) * dy := by
      rw [ht]; ring
    rw [e1, e2] at hs
    exact hs
  · -- the centre cell itself
    have hc : (i : Int) = ((min wn 3 : Nat) : Int) := by omega
    have e1 : row + ((i : Int) - ((min wn 3 : Nat) : Int)) * dx = row := by
      rw [hc]; ring
    have e2 : col + ((i : Int) - ((min wn 3 : Nat) : Int)) * dy = col := by
      rw [hc]; ring
    rw [e1, e2]
    exact h0
  · -- the cell lies on the positive-direction side of the centre
    have hidx : i - min wn 3 - 1 < wp := by omega
    have hs := walkCount_sound b p dx dy 7 (row + dx) (col + dy) _ hidx
    have ht : ((i - min wn 3 - 1 : Nat) : Int) = (i : Int) - ((min wn 3 : Nat) : Int) - 1 := by
      omega
    have e1 : row + dx + ((i - min wn 3 - 1 : Nat) : Int) * dx
        = row + ((i : Int) - ((min wn 3 : Nat) : Int)) * dx := by
      rw [ht]; ring
    have e2 : col + dy + ((i - min wn 3 - 1 : Nat) : Int) * dy
        = col + ((i : Int) - ((min wn 3 : Nat) : Int)) * dy := by
      rw [ht]; ring
    rw [e1, e2] at hs
    exact hs

/-- From a window of four consecutive matching cells containing the centre,
    the axis count through the centre reaches 4. -/
theorem count_of_window (b : Board) (p : Color) (row col dx dy : Int) (j : Nat)
    (hj4 : j < 4)
    (hwin : ∀ i : Nat, i < 4 → matchCell b p (row + ((i : Int) - (j : Int)) * dx)
        (col + ((i : Int) - (j : Int)) * dy) = true) :
    4 ≤ 1 + walkCount b p dx dy 7 (row + dx) (col + dy)
          + walkCount b p (-dx) (-dy) 7 (row + -dx) (col + -dy) := by
  have hpos : 3 - j ≤ walkCount b p dx dy 7 (row + dx) (col + dy) := by
    apply walkCount_complete b p dx dy 7 (3 - j) (row + dx) (col + dy) (by omega)
    intro i hi
    have hh := hwin (j + 1 + i) (by omega)
    have ht : ((j + 1 + i : Nat) : Int) - (j : Int) = (i : Int) + 1 := by omega
    have e1 : row + (((j + 1 + i : Nat) : Int) - (j : Int)) * dx
        = row + dx + (i : Int) * dx := by rw [ht]; ring
    have e2 : col + (((j + 1 + i : Nat) : Int) - (j : Int)) * dy
        = col + dy + (i : Int) * dy := by rw [ht]; ring
    rw [e1, e2] at hh
    exact hh
  have hneg : j ≤ walkCount b p (-dx) (-dy) 7 (row + -dx) (col + -dy) := by
    apply walkCount_complete b p (-dx) (-dy) 7 j (row + -dx) (col + -dy) (by omega)
    intro i hi
    have hh := hwin (j - 1 - i) (by omega)
    have ht : ((j - 1 - i : Nat) : Int) - (j : Int) = -((i : Int) + 1) := by omega
    have e1 : row + (((j - 1 - i : Nat) : Int) - (j : Int)) * dx
        = row + -dx + (i : Int) * -dx := by rw [ht]; ring
    have e2 : col + (((j - 1 - i : Nat) : Int) - (j : Int)) * dy
        = col + -dy + (i : Int) * -dy := by rw [ht]; ring
    rw [e1, e2] at hh
    exact hh
  omega

/-- C6 (amended): provided the inspected cell itself holds color p — as it
    always does at the call site, where the disc was just placed — checkWin is
    true iff some axis (horizontal, vertical or either diagonal) contains at
    least four consecutive cells of color p passing through (row, col). -/
theorem checkWin_iff_hasFourThrough (b : Board) (row col : Int) (p : Color)
    (h0 : matchCell b p row col = true) :
    checkWin row col b p = true ↔ hasFourThrough b row col p := by
  constructor
  · intro h
    rcases List.any_eq_true.mp h with ⟨d, hd, hcnt⟩
    replace hcnt := of_decide_eq_true hcnt
    have hd4 : d = ((0, 1), (0, -1)) ∨ d = ((1, 0), (-1, 0)) ∨
        d = ((1, 1), (-1, -1)) ∨ d = ((1, -1), (-1, 1)) := by
      simpa [dirPairs] using hd
    rcases hd4 with rfl | rfl | rfl | rfl
    · rcases window_of_count b p row col 0 1 h0 hcnt with ⟨j, hj, hw⟩
      exact ⟨(0, 1), by decide, j, hj, hw⟩
    · rcases window_of_count b p row col 1 0 h0 hcnt with ⟨j, hj, hw⟩
      exact ⟨(1, 0), by decide, j, hj, hw⟩
    · rcases window_of_count b p row col 1 1 h0 hcnt with ⟨j, hj, hw⟩
      exact ⟨(1, 1), by decide, j, hj, hw⟩
    · rcases window_of_count b p row col 1 (-1) h0 hcnt with ⟨j, hj, hw⟩
      exact ⟨(1, -1), by decide, j, hj, hw⟩
  · rintro ⟨d, hd, j, hj, hw⟩
    have hd4 : d = (0, 1) ∨ d = (1, 0) ∨ d = (1, 1) ∨ d = (1, -1) := by
      simpa [primDirs] using hd
    apply List.any_eq_true.mpr
    rcases hd4 with rfl | rfl | rfl | rfl
    · exact ⟨((0, 1), (0, -1)), by decide,
        decide_eq_true (count_of_window b p row col 0 1 j hj hw)⟩
    · exact ⟨((1, 0), (-1, 0)), by decide,
        decide_eq_true (count_of_window b p row col 1 0 j hj hw)⟩
    · exact ⟨((1, 1), (-1, -1)), by decide,
        decide_eq_true (count_of_window b p row col 1 1 j hj hw)⟩
    · exact ⟨((1, -1), (-1, 1)), by decide,
        decide_eq_true (count_of_window b p row col 1 (-1) j hj hw)⟩

/-- Witness for C6: the amended equivalence applied to a concrete board with
    a vertical red run of four in column 2, placed cell (2, 2). -/
def c6wBoard : Board :=
  [e7, e7,
   [Cell.empty, Cell.empty, Cell.stone Color.red, Cell.empty, Cell.empty, Cell.empty,
    Cell.empty],
   [Cell.empty, Cell.empty, Cell.stone Color.red, Cell.empty, Cell.empty, Cell.empty,
    Cell.empty],
   [Cell.empty, Cell.empty, Cell.stone Color.red, Cell.empty, Cell.empty, Cell.empty,
    Cell.empty],
   [Cell.empty, Cell.empty, Cell.stone Color.red, Cell.stone Color.yellow,
    Cell.stone Color.yellow, Cell.stone Color.yellow, Cell.empty]]

theorem checkWin_iff_hasFourThrough_witness :
    matchCell c6wBoard Color.red 2 2 = true ∧
    (checkWin 2 2 c6wBoard Color.red = true ↔ hasFourThrough c6wBoard 2 2 Color.red) :=
  ⟨by decide, checkWin_iff_hasFourThrough c6wBoard 2 2 Color.red (by decide)⟩

/- The process-wide tables of src/server.js: games, playerStats, playerNames
   and pendingRematches are JavaScript objects keyed by strings.  They are
   modelled as association lists in insertion order with unique keys:
   alookup is property read, aset is property write (overwrite in place or
   append), aremove is the delete operator. -/

def alookup {α : Type} (l : List (String × α)) (k : String) : Option α :=
  match l with
  | [] => none
  | e :: rest => if e.1 = k then some e.2 else alookup rest k

def aset {α : Type} (l : List (String × α)) (k : String) (v : α) : List (String × α) :=
  match l with
  | [] => [(k, v)]
  | e :: rest => if e.1 = k then (k, v) :: rest else e :: aset rest k v

def aremove {α : Type} (l : List (String × α)) (k : String) : List (String × α) :=
  match l with
  | [] => []
  | e :: rest => if e.1 = k then aremove rest k else e :: aremove rest k

theorem alookup_aset {α : Type} (l : List (String × α)) (k k' : String) (v : α) :
    alookup (aset l k v) k' = if k = k' then some v else alookup l k' := by
  induction l with
  | nil => simp [aset, alookup]
  | cons e rest ih =>
      by_cases he : e.1 = k
      · rw [aset, if_pos he, alookup]
        by_cases hk : k = k'
        · rw [if_pos hk, if_pos hk]
        · rw [if_neg hk, if_neg hk, alookup, if_neg (by rw [he]; exact hk)]
      · rw [aset, if_neg he, alookup]
        by_cases he' : e.1 = k'
        · rw [if_pos he', if_neg (by intro hk; exact he (hk ▸ he')), alookup, if_pos he']
        · rw [if_neg he', ih, alookup, if_neg he']

theorem alookup_aremove {α : Type} (l : List (String × α)) (k k' : String) :
    alookup (aremove l k) k' = if k = k' then none else alookup l k' := by
  induction l with
  | nil => simp [aremove, alookup]
  | cons e rest ih =>
      rw [aremove]
      by_cases he : e.1 = k
      · rw [if_pos he, ih]
        by_cases hk : k = k'
        · rw [if_pos hk, if_pos hk]
        · rw [if_neg hk, if_neg hk, alookup, if_neg (by rw [he]; exact hk)]
      · rw [if_neg he, alookup, alookup]
        by_cases he' : e.1 = k'
        · rw [if_pos he', if_neg (fun hk => he (he'.trans hk.symm)), if_pos he']
        · rw [if_neg he', if_neg he', ih]

theorem alookup_mapval {α β : Type} (l : List (String × α)) (t : α → β) (k : String) :
    alookup (l.map fun e => (e.1, t e.2)) k = (alookup l k).map t := by
  induction l with
  | nil => simp [alookup]
  | cons e rest ih =>
      rw [List.map_cons, alookup, alookup]
      by_cases he : e.1 = k
      · rw [if_pos he, if_pos he]; rfl
      · rw [if_neg he, if_neg he, ih]

/- The session object stored in games[gameId]. -/

structure Players where
  red : Option String
  redName : Option String
  yellow : Option String
  yellowName : Option String
deriving DecidableEq

structure GameState where
  board : Board
  currentPlayer : Color
  players : Players
  winner : Option Winner
  winningCells : List (Int × Int)
  status : Status
  createdAt : Int
  lastMoveAt : Option Int
  moves : Nat
  originalGameId : String
  gameNumber : Nat
deriving DecidableEq

/-- A per-player record inside playerStats[seriesId]. -/
structure PlayerStat where
  id : Option String
  name : Option String
  wins : Nat
deriving DecidableEq

structure SeriesStats where
  seriesId : String
  red : PlayerStat
  yellow : PlayerStat
  gamesPlayed : Nat
deriving DecidableEq

structure RematchReq where
  gameId : String
  requester : String
  opponent : String
  timestamp : Int
deriving DecidableEq

structure ServerState where
  games : List (String × GameState)
  playerStats : List (String × SeriesStats)
  playerNames : List (String × String)
  pendingRematches : List (String × RematchReq)
deriving DecidableEq

def initialState : ServerState :=
  { games := [], playerStats := [], playerNames := [], pendingRematches := [] }

/-- The fallback display name Player_ followed by the first four characters
    of the connection id. -/
def defaultName (conn : String) : String := "Player_" ++ conn.take 4

/-- playerNames[socket.id] with the JS falsy fallback to the default name. -/
def lookupName (s : ServerState) (conn : String) : String :=
  match alookup s.playerNames conn with
  | some n => if n = "" then defaultName conn else n
  | none => defaultName conn

/- Event handlers.  Each returns the new state together with the error
   message emitted through errorMsg, none on the silent or success paths.
   Randomly generated ids and Date.now() readings enter as parameters. -/

/-- setPlayerName handler. -/
def setPlayerNameH (s : ServerState) (conn name : String) : ServerState × Option String :=
  if 0 < name.trim.length then
    ({ s with playerNames := aset s.playerNames conn (name.trim.take 15) }, none)
  else
    ({ s with playerNames := aset s.playerNames conn (defaultName conn) }, none)

/-- The session object built by the createGame handler. -/
def newGame (gid conn pname : String) (now : Int) : GameState :=
  { board := emptyBoard, currentPlayer := Color.red,
    players := { red := some conn, redName := some pname, yellow := none, yellowName := none },
    winner := none, winningCells := [], status := Status.waiting,
    createdAt := now, lastMoveAt := none, moves := 0,
    originalGameId := gid, gameNumber := 1 }

/-- createGame handler; gid is the value returned by generateGameId. -/
def createGameH (s : ServerState) (conn gid : String) (now : Int) : ServerState × Option String :=
  ({ s with games := aset s.games gid (newGame gid conn (lookupName s conn) now) }, none)

/-- initializePlayerStats: create the series record only when absent. -/
def initStats (tbl : List (String × SeriesStats)) (gid : String)
    (redId yellowId redName yellowName : Option String) : List (String × SeriesStats) :=
  match alookup tbl gid with
  | some _ => tbl
  | none => aset tbl gid
      ({ seriesId := gid,
         red := { id := redId, name := redName, wins := 0 },
         yellow := { id := yellowId, name := yellowName, wins := 0 },
         gamesPlayed := 0 })

/-- joinGame handler. -/
def joinGameH (s : ServerState) (conn gid : String) : ServerState × Option String :=
  match alookup s.games gid with
  | none => (s, some "Game not found. Please check the Game ID.")
  | some g =>
    match g.players.yellow with
    | some _ => (s, some "Game is already full. Please join another game.")
    | none =>
        let pname := lookupName s conn
        let g' := { g with
          players := { g.players with yellow := some conn, yellowName := some pname },
          status := Status.playing }
        ({ s with games := aset s.games gid g',
                  playerStats := initStats s.playerStats g.originalGameId
                    g'.players.red g'.players.yellow
                    g'.players.redName g'.players.yellowName }, none)

/-- updatePlayerStats: bump gamesPlayed and the winning color. -/
def bumpStats (st : SeriesStats) (w : Color) : SeriesStats :=
  let st1 := { st with gamesPlayed := st.gamesPlayed + 1 }
  match w with
  | Color.red => { st1 with red := { st1.red with wins := st1.red.wins + 1 } }
  | Color.yellow => { st1 with yellow := { st1.yellow with wins := st1.yellow.wins + 1 } }

/-- updatePlayerStats(gameId, winner): silently no-op when the series record
    is absent. -/
def updatePlayerStatsH (tbl : List (String × SeriesStats)) (gid : String) (w : Color) :
    List (String × SeriesStats) :=
  match alookup tbl gid with
  | none => tbl
  | some st => aset tbl gid (bumpStats st w)

/-- The unconditional part of a successful makeMove: the board write, the
    move count bump and the lastMoveAt stamp. -/
def moveBoard (g : GameState) (row col : Int) (color : Color) (now : Int) : GameState :=
  { g with board := setCell g.board row col (Cell.stone color),
           moves := g.moves + 1, lastMoveAt := some now }

/-- The mutation of the game record in a successful makeMove: win, draw or
    turn flip, applied on top of moveBoard. -/
def applyMove (g : GameState) (row col : Int) (color : Color) (now : Int) : GameState :=
  if checkWin row col (setCell g.board row col (Cell.stone color)) color then
    { moveBoard g row col color now with
      winner := some (Winner.color color),
      winningCells := getWinningCells row col (setCell g.board row col (Cell.stone color)) color,
      status := Status.finished }
  else if isBoardFull (setCell g.board row col (Cell.stone color)) then
    { moveBoard g row col color now with winner := some Winner.draw, status := Status.finished }
  else
    { moveBoard g row col color now with currentPlayer := oppColor color }

/-- makeMove handler.  The submitting socket is never consulted.  The stats
    table is updated exactly when the same checkWin test that decides the
    win branch of applyMove is true. -/
def makeMoveH (s : ServerState) (gid : String) (col : Int) (color : Color) (now : Int) :
    ServerState × Option String :=
  match alookup s.games gid with
  | none => (s, some "Game not found.")
  | some g =>
    if g.winner.isSome then (s, some "Game has already ended.")
    else if g.currentPlayer ≠ color then (s, some "It\x27s not your turn.")
    else if g.players.red.isNone ∨ g.players.yellow.isNone then
      (s, some "Waiting for opponent to join.")
    else if col < 0 ∨ col > 6 then (s, some "Invalid column.")
    else
      match findRow g.board col with
      | none => (s, some "Column is full. Choose another column.")
      | some row =>
          ({ s with games := aset s.games gid (applyMove g row col color now),
                    playerStats :=
                      if checkWin row col (setCell g.board row col (Cell.stone color)) color
                      then updatePlayerStatsH s.playerStats g.originalGameId color
                      else s.playerStats }, none)

/-- requestRematch handler: no status check at all, overwrites any pending
    entry for the session. -/
def requestRematchH (s : ServerState) (conn gid : String) (now : Int) :
    ServerState × Option String :=
  match alookup s.games gid with
  | none => (s, some "Cannot request rematch.")
  | some g =>
    match g.players.red, g.players.yellow with
    | some r, some y =>
        let req : RematchReq :=
          { gameId := gid, requester := conn,
            opponent := if r = conn then y else r, timestamp := now }
        ({ s with pendingRematches := aset s.pendingRematches gid req }, none)
    | some _, none => (s, some "Cannot request rematch.")
    | none, _ => (s, some "Cannot request rematch.")

/-- The session object built by the acceptRematch handler: both seats carried
    forward, same series id, playing from an empty board, game number
    gamesPlayed + 1. -/
def rematchGame (g : GameState) (st : SeriesStats) (now : Int) : GameState :=
  { board := emptyBoard, currentPlayer := Color.red,
    players := { red := g.players.red, redName := g.players.redName,
                 yellow := g.players.yellow, yellowName := g.players.yellowName },
    winner := none, winningCells := [], status := Status.playing,
    createdAt := now, lastMoveAt := none, moves := 0,
    originalGameId := g.originalGameId, gameNumber := st.gamesPlayed + 1 }

/-- acceptRematch handler; newGid is the value returned by generateGameId. -/
def acceptRematchH (s : ServerState) (conn gid newGid : String) (now : Int) :
    ServerState × Option String :=
  match alookup s.pendingRematches gid with
  | none => (s, some "Invalid rematch acceptance.")
  | some pr =>
    if pr.opponent ≠ conn then (s, some "Invalid rematch acceptance.")
    else
      match alookup s.games gid with
      | none => (s, some "Game not found.")
      | some g =>
        match alookup s.playerStats g.originalGameId with
        | none => (s, some "Game stats not found.")
        | some st =>
            ({ s with games := aremove (aset s.games newGid (rematchGame g st now)) gid,
                      pendingRematches := aremove s.pendingRematches gid }, none)

/-- declineRematch handler: silent no-op when no pending entry exists. -/
def declineRematchH (s : ServerState) (gid : String) : ServerState × Option String :=
  match alookup s.pendingRematches gid with
  | some _ => ({ s with pendingRematches := aremove s.pendingRematches gid }, none)
  | none => (s, none)

/-- The seat-vacating branch shared by leaveGame and disconnect: null the
    seat the connection occupies, set abandoned and hand the win to the
    other color; a connection seated nowhere changes nothing. -/
def abandonFor (g : GameState) (conn : String) : GameState :=
  if g.players.red = some conn then
    { g with players := { g.players with red := none },
             status := Status.abandoned, winner := some (Winner.color Color.yellow) }
  else if g.players.yellow = some conn then
    { g with players := { g.players with yellow := none },
             status := Status.abandoned, winner := some (Winner.color Color.red) }
  else g

/-- leaveGame handler.  The delayed deletion it schedules is modelled by the
    separate timer event expireGame. -/
def leaveGameH (s : ServerState) (conn gid : String) : ServerState × Option String :=
  match alookup s.games gid with
  | none => (s, none)
  | some g =>
      ({ s with games := aset s.games gid (abandonFor g conn),
                pendingRematches := aremove s.pendingRematches gid }, none)

/-- The per-entry action of the disconnect sweep over Object.entries(games). -/
def disconnectGame (conn : String) (g : GameState) : GameState :=
  if g.players.red = some conn ∨ g.players.yellow = some conn then abandonFor g conn else g

/-- disconnect handler: sweep all games, drop pending rematches of affected
    games, purge the display name.  Scheduled deletions are modelled by
    expireGame. -/
def disconnectH (s : ServerState) (conn : String) : ServerState × Option String :=
  ({ s with
     games := s.games.map fun e => (e.1, disconnectGame conn e.2),
     pendingRematches := s.pendingRematches.filter fun e =>
       match alookup s.games e.1 with
       | some g => !(g.players.red == some conn || g.players.yellow == some conn)
       | none => true,
     playerNames := aremove s.playerNames conn }, none)

/-- The delayed deletion scheduled by leaveGame and disconnect, and the
    hourly stale-game sweep: both only ever remove a game entry. -/
def expireGameH (s : ServerState) (gid : String) : ServerState × Option String :=
  ({ s with games := aremove s.games gid }, none)

/-- The 30-second sweep of expired pending rematches, per entry. -/
def expireRematchH (s : ServerState) (gid : String) : ServerState × Option String :=
  ({ s with pendingRematches := aremove s.pendingRematches gid }, none)

/-- Inbound events.  conn is the socket id of the submitting connection; gid
    and newGid the session ids involved; now the Date.now() reading.  The
    two expire events over-approximate the timer-driven deletions. -/
inductive Event : Type
  | setPlayerName (conn name : String)
  | createGame (conn gid : String) (now : Int)
  | joinGame (conn gid : String)
  | makeMove (conn gid : String) (col : Int) (color : Color) (now : Int)
  | requestRematch (conn gid : String) (now : Int)
  | acceptRematch (conn gid newGid : String) (now : Int)
  | declineRematch (conn gid : String)
  | leaveGame (conn gid : String)
  | disconnect (conn : String)
  | expireGame (gid : String)
  | expireRematch (gid : String)

/-- One inbound event processed to completion. -/
def step (s : ServerState) : Event → ServerState × Option String
  | Event.setPlayerName conn name => setPlayerNameH s conn name
  | Event.createGame conn gid now => createGameH s conn gid now
  | Event.joinGame conn gid => joinGameH s conn gid
  | Event.makeMove _ gid col color now => makeMoveH s gid col color now
  | Event.requestRematch conn gid now => requestRematchH s conn gid now
  | Event.acceptRematch conn gid newGid now => acceptRematchH s conn gid newGid now
  | Event.declineRematch _ gid => declineRematchH s gid
  | Event.leaveGame conn gid => leaveGameH s conn gid
  | Event.disconnect conn => disconnectH s conn
  | Event.expireGame gid => expireGameH s gid
  | Event.expireRematch gid => expireRematchH s gid

/-- States reachable from the empty server by any sequence of events. -/
inductive Reachable : ServerState → Prop
  | init : Reachable initialState
  | next (s : ServerState) (e : Event) (h : Reachable s) : Reachable (step s e).1

/-- Run a list of events from a state, keeping only the states. -/
def runEvents (s : ServerState) (es : List Event) : ServerState :=
  es.foldl (fun s e => (step s e).1) s

theorem reachable_run (s : ServerState) (es : List Event) (h : Reachable s) :
    Reachable (runEvents s es) := by
  induction es generalizing s with
  | nil => exact h
  | cons e es ih => exact ih (step s e).1 (Reachable.next s e h)

/- Small facts about the handler building blocks. -/

theorem applyMove_board (g : GameState) (row col : Int) (color : Color) (now : Int) :
    (applyMove g row col color now).board = setCell g.board row col (Cell.stone color) := by
  unfold applyMove
  split_ifs <;> rfl

theorem applyMove_moves (g : GameState) (row col : Int) (color : Color) (now : Int) :
    (applyMove g row col color now).moves = g.moves + 1 := by
  unfold applyMove
  split_ifs <;> rfl

theorem abandonFor_board (g : GameState) (conn : String) :
    (abandonFor g conn).board = g.board ∧ (abandonFor g conn).moves = g.moves := by
  unfold abandonFor
  split_ifs <;> exact ⟨rfl, rfl⟩

theorem abandonFor_eq_of_finished (g : GameState) (conn : String)
    (h : (abandonFor g conn).status = Status.finished) : abandonFor g conn = g := by
  unfold abandonFor at h ⊢
  split_ifs at h ⊢
  rfl

/-- A connection occupies a seat of the session. -/
def seatedIn (conn : String) (g : GameState) : Prop :=
  g.players.red = some conn ∨ g.players.yellow = some conn

theorem abandonFor_not_seated (g : GameState) (conn : String) (h : ¬ seatedIn conn g) :
    abandonFor g conn = g := by
  unfold seatedIn at h
  unfold abandonFor
  rw [if_neg fun hh : g.players.red = some conn => h (Or.inl hh),
    if_neg fun hh : g.players.yellow = some conn => h (Or.inr hh)]

theorem disconnectGame_eq_of_finished (conn : String) (g : GameState)
    (h : (disconnectGame conn g).status = Status.finished) : disconnectGame conn g = g := by
  unfold disconnectGame at h ⊢
  split_ifs at h ⊢
  · exact abandonFor_eq_of_finished g conn h
  · rfl

theorem disconnectGame_not_seated (conn : String) (g : GameState) (h : ¬ seatedIn conn g) :
    disconnectGame conn g = g := by
  unfold seatedIn at h
  unfold disconnectGame
  rw [if_neg h]

theorem disconnectGame_board (conn : String) (g : GameState) :
    (disconnectGame conn g).board = g.board ∧ (disconnectGame conn g).moves = g.moves := by
  unfold disconnectGame
  split_ifs with h
  · exact abandonFor_board g conn
  · exact ⟨rfl, rfl⟩

/- Handlers that leave the games table untouched. -/

theorem setPlayerNameH_games (s : ServerState) (conn name : String) :
    (setPlayerNameH s conn name).1.games = s.games := by
  unfold setPlayerNameH
  split_ifs <;> rfl

theorem requestRematchH_games (s : ServerState) (conn gid : String) (now : Int) :
    (requestRematchH s conn gid now).1.games = s.games := by
  unfold requestRematchH
  split
  · rfl
  · split <;> rfl

theorem declineRematchH_games (s : ServerState) (gid : String) :
    (declineRematchH s gid).1.games = s.games := by
  unfold declineRematchH
  split <;> rfl

/- Decompositions of the makeMove handler. -/

theorem makeMoveH_state_or_ok (s : ServerState) (gid : String) (col : Int) (color : Color)
    (now : Int) :
    (makeMoveH s gid col color now).1 = s ∨ (makeMoveH s gid col color now).2 = none := by
  unfold makeMoveH
  split
  · exact Or.inl rfl
  · split_ifs <;>
      first
        | exact Or.inl rfl
        | (split <;> first | exact Or.inl rfl | exact Or.inr rfl)

theorem makeMoveH_success_fields (s : ServerState) (gid : String) (col : Int) (color : Color)
    (now : Int) (g : GameState) (row : Int)
    (hg : alookup s.games gid = some g) (hw : g.winner = none)
    (ht : g.currentPlayer = color) (hr : g.players.red.isSome = true)
    (hy : g.players.yellow.isSome = true) (hc : ¬(col < 0 ∨ col > 6))
    (hrow : findRow g.board col = some row) :
    (makeMoveH s gid col color now).2 = none ∧
    (makeMoveH s gid col color now).1.games = aset s.games gid (applyMove g row col color now) ∧
    (makeMoveH s gid col color now).1.playerStats =
      (if checkWin row col (setCell g.board row col (Cell.stone color)) color
       then updatePlayerStatsH s.playerStats g.originalGameId color
       else s.playerStats) := by
  obtain ⟨rc, hrc⟩ := Option.isSome_iff_exists.mp hr
  obtain ⟨yc, hyc⟩ := Option.isSome_iff_exists.mp hy
  simp only [makeMoveH, hg, hw, ht, hrc, hyc, hrow, Option.isSome_none, Bool.false_eq_true,
    if_false, ne_eq, not_true_eq_false, Option.isNone_some, or_self, if_neg hc]
  exact ⟨trivial, trivial, trivial⟩

theorem makeMoveH_cases (s : ServerState) (gid : String) (col : Int) (color : Color)
    (now : Int) :
    (makeMoveH s gid col color now).1 = s ∨
    ∃ g row, alookup s.games gid = some g ∧ g.winner = none ∧ ¬(col < 0 ∨ col > 6) ∧
      findRow g.board col = some row ∧
      (makeMoveH s gid col color now).1.games
        = aset s.games gid (applyMove g row col color now) ∧
      (makeMoveH s gid col color now).1.playerStats =
        (if checkWin row col (setCell g.board row col (Cell.stone color)) color
         then updatePlayerStatsH s.playerStats g.originalGameId color
         else s.playerStats) := by
  unfold makeMoveH
  split
  · exact Or.inl rfl
  · rename_i g hgm
    by_cases h1 : g.winner.isSome = true
    · rw [if_pos h1]
      exact Or.inl rfl
    · rw [if_neg h1]
      by_cases h2 : g.currentPlayer ≠ color
      · rw [if_pos h2]
        exact Or.inl rfl
      · rw [if_neg h2]
        by_cases h3 : g.players.red.isNone = true ∨ g.players.yellow.isNone = true
        · rw [if_pos h3]
          exact Or.inl rfl
        · rw [if_neg h3]
          by_cases h4 : col < 0 ∨ col > 6
          · rw [if_pos h4]
            exact Or.inl rfl
          · rw [if_neg h4]
            split
            · exact Or.inl rfl
            · rename_i row hrow
              exact Or.inr ⟨g, row, hgm, Option.not_isSome_iff_eq_none.mp h1, h4, hrow,
                rfl, rfl⟩

/- Decomposition of the acceptRematch handler. -/

theorem acceptRematchH_cases (s : ServerState) (conn gid newGid : String) (now : Int) :
    (acceptRematchH s conn gid newGid now).1 = s ∨
    ∃ g st, alookup s.games gid = some g ∧
      alookup s.playerStats g.originalGameId = some st ∧
      (acceptRematchH s conn gid newGid now).1.games
        = aremove (aset s.games newGid (rematchGame g st now)) gid ∧
      (acceptRematchH s conn gid newGid now).1.playerStats = s.playerStats := by
  unfold acceptRematchH
  split
  · exact Or.inl rfl
  · split_ifs with hop
    · exact Or.inl rfl
    · split
      · exact Or.inl rfl
      · rename_i g hgm
        split
        · exact Or.inl rfl
        · rename_i st hst
          exact Or.inr ⟨g, st, hgm, hst, rfl, rfl⟩

/- C5: rejection of makeMove mutates nothing. -/

/-- C5: whenever a makeMove event is rejected (session missing, winner set,
    wrong turn, a seat empty, column out of range or column full — the only
    error paths of the handler), the entire server state, in particular the
    board, move count, current turn, status, winner and lastMoveAt of every
    session, is left unchanged: validation completes before any mutation. -/
theorem makeMove_reject_unchanged (s : ServerState) (gid : String) (col : Int)
    (color : Color) (now : Int)
    (h : (makeMoveH s gid col color now).2.isSome = true) :
    (makeMoveH s gid col color now).1 = s := by
  rcases makeMoveH_state_or_ok s gid col color now with h1 | h2
  · exact h1
  · rw [h2] at h
    simp at h

def c5Game : GameState :=
  { board := emptyBoard, currentPlayer := Color.red,
    players := { red := some "ca", redName := some "A",
                 yellow := some "cb", yellowName := some "B" },
    winner := none, winningCells := [], status := Status.playing,
    createdAt := 0, lastMoveAt := none, moves := 0, originalGameId := "X", gameNumber := 1 }

def c5S : ServerState :=
  { games := [("X", c5Game)], playerStats := [], playerNames := [], pendingRematches := [] }

/-- Witness for C5: a move claiming yellow while it is the red turn is
    rejected and the state is unchanged. -/
theorem makeMove_reject_unchanged_witness :
    (makeMoveH c5S "X" 3 Color.yellow 9).2.isSome = true ∧
    (makeMoveH c5S "X" 3 Color.yellow 9).1 = c5S :=
  ⟨by decide, makeMove_reject_unchanged c5S "X" 3 Color.yellow 9 (by decide)⟩

/- C10: requestRematch needs only two occupied seats. -/

/-- C10: requestRematch does not require the session to be finished: for any
    session whose two seats are occupied — whatever its status and winner —
    it succeeds, leaves the games table unchanged and unconditionally
    overwrites any pending entry for the session id with the new requester,
    computed opponent and timestamp. -/
theorem requestRematch_no_finished_check (s : ServerState) (conn gid : String) (now : Int)
    (g : GameState) (r y : String)
    (hg : alookup s.games gid = some g)
    (hr : g.players.red = some r) (hy : g.players.yellow = some y) :
    (requestRematchH s conn gid now).2 = none ∧
    (requestRematchH s conn gid now).1.games = s.games ∧
    alookup (requestRematchH s conn gid now).1.pendingRematches gid =
      some { gameId := gid, requester := conn, opponent := if r = conn then y else r,
             timestamp := now } := by
  simp only [requestRematchH, hg, hr, hy]
  refine ⟨trivial, trivial, ?_⟩
  rw [alookup_aset, if_pos rfl]

def c10Game : GameState :=
  { board := emptyBoard, currentPlayer := Color.red,
    players := { red := some "pa", redName := some "PA",
                 yellow := some "pb", yellowName := some "PB" },
    winner := none, winningCells := [], status := Status.playing,
    createdAt := 0, lastMoveAt := none, moves := 0, originalGameId := "Q", gameNumber := 1 }

def c10Old : RematchReq :=
  { gameId := "Q", requester := "pb", opponent := "pa", timestamp := 1 }

def c10S : ServerState :=
  { games := [("Q", c10Game)], playerStats := [], playerNames := [],
    pendingRematches := [("Q", c10Old)] }

/-- Witness for C10: on a session still playing with winner unset and an
    existing pending entry, requestRematch succeeds and overwrites it. -/
theorem requestRematch_no_finished_check_witness :
    (alookup c10S.games "Q" = some c10Game ∧ c10Game.status = Status.playing ∧
     c10Game.winner = none ∧ alookup c10S.pendingRematches "Q" = some c10Old) ∧
    ((requestRematchH c10S "pa" "Q" 7).2 = none ∧
     (requestRematchH c10S "pa" "Q" 7).1.games = c10S.games ∧
     alookup (requestRematchH c10S "pa" "Q" 7).1.pendingRematches "Q" =
       some { gameId := "Q", requester := "pa",
              opponent := if "pa" = "pa" then "pb" else "pa", timestamp := 7 }) :=
  ⟨by decide,
   requestRematch_no_finished_check c10S "pa" "Q" 7 c10Game "pa" "pb" (by decide)
     (by decide) (by decide)⟩

/- C3: accepting a pending rematch. -/

/-- C3 (amended): provided the freshly generated id differs from the old
    session id (random id collisions are documented as undefended),
    acceptRematch by the recorded opponent on an existing session with
    existing series stats succeeds and yields a new session with the same
    series id, game number gamesPlayed + 1, status playing, both seats and
    names carried forward and an empty board, and deletes both the old
    session and the pending entry. -/
theorem acceptRematch_spec (s : ServerState) (conn gid newGid : String) (now : Int)
    (pr : RematchReq) (g : GameState) (st : SeriesStats)
    (hpr : alookup s.pendingRematches gid = some pr) (hopp : pr.opponent = conn)
    (hg : alookup s.games gid = some g)
    (hst : alookup s.playerStats g.originalGameId = some st)
    (hne : newGid ≠ gid) :
    (acceptRematchH s conn gid newGid now).2 = none ∧
    alookup (acceptRematchH s conn gid newGid now).1.games newGid
      = some (rematchGame g st now) ∧
    (rematchGame g st now).originalGameId = g.originalGameId ∧
    (rematchGame g st now).gameNumber = st.gamesPlayed + 1 ∧
    (rematchGame g st now).status = Status.playing ∧
    (rematchGame g st now).players.red = g.players.red ∧
    (rematchGame g st now).players.redName = g.players.redName ∧
    (rematchGame g st now).players.yellow = g.players.yellow ∧
    (rematchGame g st now).players.yellowName = g.players.yellowName ∧
    (rematchGame g st now).board = emptyBoard ∧
    (rematchGame g st now).moves = 0 ∧
    alookup (acceptRematchH s conn gid newGid now).1.games gid = none ∧
    alookup (acceptRematchH s conn gid newGid now).1.pendingRematches gid = none := by
  have hop2 : ¬ pr.opponent ≠ conn := fun hh => hh hopp
  simp only [acceptRematchH, hpr, if_neg hop2, hg, hst]
  refine ⟨trivial, ?_, rfl, rfl, rfl, rfl, rfl, rfl, rfl, rfl, rfl, ?_, ?_⟩
  · rw [alookup_aremove, if_neg (fun hh => hne hh.symm), alookup_aset, if_pos rfl]
  · rw [alookup_aremove, if_pos rfl]
  · rw [alookup_aremove, if_pos rfl]

def c3Events : List Event :=
  [Event.createGame "ua" "R" 0, Event.joinGame "ub" "R", Event.requestRematch "ua" "R" 5]

def c3S : ServerState := runEvents initialState c3Events

/-- C3 counterexample: when generateGameId returns the id of the very session
    being rematched — possible, since id collisions are undefended — the
    acceptance reports success and consumes the pending entry, yet no new
    session exists afterwards: the games table ends up empty. -/
theorem acceptRematch_collision :
    alookup c3S.pendingRematches "R" =
      some { gameId := "R", requester := "ua", opponent := "ub", timestamp := 5 } ∧
    (alookup c3S.playerStats "R").isSome = true ∧
    (acceptRematchH c3S "ub" "R" "R" 9).2 = none ∧
    (acceptRematchH c3S "ub" "R" "R" 9).1.games = [] ∧
    (acceptRematchH c3S "ub" "R" "R" 9).1.pendingRematches = [] := by
  decide

def noGame : GameState := newGame "" "" "" 0

def noStats : SeriesStats :=
  { seriesId := "", red := { id := none, name := none, wins := 0 },
    yellow := { id := none, name := none, wins := 0 }, gamesPlayed := 0 }

def c3Game : GameState := (alookup c3S.games "R").getD noGame

def c3St : SeriesStats := (alookup c3S.playerStats "R").getD noStats

def c3Pr : RematchReq := (alookup c3S.pendingRematches "R").getD
  { gameId := "", requester := "", opponent := "", timestamp := 0 }

/-- Witness for C3: the amended theorem applied to the reachable state after
    create, join and requestRematch, with the fresh id S. -/
theorem acceptRematch_spec_witness :
    (alookup c3S.pendingRematches "R" = some c3Pr ∧ c3Pr.opponent = "ub" ∧
     alookup c3S.games "R" = some c3Game ∧
     alookup c3S.playerStats c3Game.originalGameId = some c3St ∧ "S" ≠ "R") ∧
    ((acceptRematchH c3S "ub" "R" "S" 9).2 = none ∧
     alookup (acceptRematchH c3S "ub" "R" "S" 9).1.games "S"
       = some (rematchGame c3Game c3St 9) ∧
     (rematchGame c3Game c3St 9).originalGameId = c3Game.originalGameId ∧
     (rematchGame c3Game c3St 9).gameNumber = c3St.gamesPlayed + 1 ∧
     (rematchGame c3Game c3St 9).status = Status.playing ∧
     (rematchGame c3Game c3St 9).players.red = c3Game.players.red ∧
     (rematchGame c3Game c3St 9).players.redName = c3Game.players.redName ∧
     (rematchGame c3Game c3St 9).players.yellow = c3Game.players.yellow ∧
     (rematchGame c3Game c3St 9).players.yellowName = c3Game.players.yellowName ∧
     (rematchGame c3Game c3St 9).board = emptyBoard ∧
     (rematchGame c3Game c3St 9).moves = 0 ∧
     alookup (acceptRematchH c3S "ub" "R" "S" 9).1.games "R" = none ∧
     alookup (acceptRematchH c3S "ub" "R" "S" 9).1.pendingRematches "R" = none) :=
  ⟨by decide,
   acceptRematch_spec c3S "ub" "R" "S" 9 c3Pr c3Game c3St (by decide) (by decide)
     (by decide) (by decide) (by decide)⟩

/- C9: makeMove never identifies the submitter. -/

/-- C9 (amended): makeMove never checks that the submitting connection
    occupies the seat of the claimed color: on any session with winner unset
    (the check the handler actually performs; playing status alone does not
    suffice), both seats occupied, current turn c and a valid non-full
    column, a makeMove claiming c succeeds and produces the identical result
    no matter which connection submits it, including one seated nowhere. -/
theorem makeMove_ignores_submitter (s : ServerState) (conn conn' gid : String)
    (col : Int) (color : Color) (now : Int) (g : GameState)
    (hg : alookup s.games gid = some g) (_hstat : g.status = Status.playing)
    (hw : g.winner = none) (hr : g.players.red.isSome = true)
    (hy : g.players.yellow.isSome = true) (ht : g.currentPlayer = color)
    (hc : ¬(col < 0 ∨ col > 6)) (hrow : (findRow g.board col).isSome = true) :
    step s (Event.makeMove conn gid col color now)
      = step s (Event.makeMove conn' gid col color now) ∧
    (step s (Event.makeMove conn gid col color now)).2 = none := by
  obtain ⟨row, hrow2⟩ := Option.isSome_iff_exists.mp hrow
  exact ⟨rfl, (makeMoveH_success_fields s gid col color now g row hg hw ht hr hy hc hrow2).1⟩

def c9Events : List Event :=
  [Event.createGame "va" "K" 0, Event.joinGame "vb" "K",
   Event.leaveGame "vb" "K", Event.joinGame "vc" "K"]

def c9S : ServerState := runEvents initialState c9Events

def c9Game : GameState := (alookup c9S.games "K").getD noGame

/-- C9 counterexample: a reachable session in playing status, both seats
    occupied, red to move and column 0 open, on which every makeMove is
    nevertheless rejected: the winner survives from an earlier abandonment
    and makeMove checks winner, not status. -/
theorem makeMove_playing_rejected :
    c9Game.status = Status.playing ∧ c9Game.players.red.isSome = true ∧
    c9Game.players.yellow.isSome = true ∧ c9Game.currentPlayer = Color.red ∧
    findRow c9Game.board 0 = some 5 ∧ c9Game.winner = some (Winner.color Color.red) ∧
    (step c9S (Event.makeMove "va" "K" 0 Color.red 9)).2
      = some "Game has already ended." ∧
    (step c9S (Event.makeMove "va" "K" 0 Color.red 9)).1 = c9S := by
  decide

def c9WGame : GameState :=
  { board := emptyBoard, currentPlayer := Color.red,
    players := { red := some "wa", redName := some "WA",
                 yellow := some "wb", yellowName := some "WB" },
    winner := none, winningCells := [], status := Status.playing,
    createdAt := 0, lastMoveAt := none, moves := 0, originalGameId := "W", gameNumber := 1 }

def c9WS : ServerState :=
  { games := [("W", c9WGame)], playerStats := [], playerNames := [], pendingRematches := [] }

/-- Witness for C9: the stranger zz and the seated red player wa produce the
    identical successful state change. -/
theorem makeMove_ignores_submitter_witness :
    (alookup c9WS.games "W" = some c9WGame ∧ c9WGame.status = Status.playing ∧
     c9WGame.winner = none ∧ c9WGame.currentPlayer = Color.red ∧
     (findRow c9WGame.board 3).isSome = true) ∧
    (step c9WS (Event.makeMove "zz" "W" 3 Color.red 5)
       = step c9WS (Event.makeMove "wa" "W" 3 Color.red 5) ∧
     (step c9WS (Event.makeMove "zz" "W" 3 Color.red 5)).2 = none) :=
  ⟨by decide,
   makeMove_ignores_submitter c9WS "zz" "wa" "W" 3 Color.red 5 c9WGame (by decide)
     (by decide) (by decide) (by decide) (by decide) (by decide) (by decide) (by decide)⟩

/- C4: stats update on a decisive win, and only then. -/

/-- Wins counter of a color inside a series record. -/
def winsOf (st : SeriesStats) (c : Color) : Nat :=
  match c with
  | Color.red => st.red.wins
  | Color.yellow => st.yellow.wins

/-- C4: a successful makeMove that produces a decisive win updates the series
    stats at the session series id: the winning color counter and the
    gamesPlayed counter each grow by exactly one and the other counter is
    unchanged; a successful move that does not win — in particular a draw
    that fills the board — leaves the whole stats table unchanged. -/
theorem makeMove_stats (s : ServerState) (gid : String) (col : Int) (color : Color)
    (now : Int) (g : GameState) (row : Int) (st : SeriesStats)
    (hg : alookup s.games gid = some g) (hw : g.winner = none)
    (ht : g.currentPlayer = color) (hr : g.players.red.isSome = true)
    (hy : g.players.yellow.isSome = true) (hc : ¬(col < 0 ∨ col > 6))
    (hrow : findRow g.board col = some row)
    (hst : alookup s.playerStats g.originalGameId = some st) :
    (makeMoveH s gid col color now).2 = none ∧
    (checkWin row col (setCell g.board row col (Cell.stone color)) color = true →
      alookup (makeMoveH s gid col color now).1.playerStats g.originalGameId
        = some (bumpStats st color) ∧
      winsOf (bumpStats st color) color = winsOf st color + 1 ∧
      winsOf (bumpStats st color) (oppColor color) = winsOf st (oppColor color) ∧
      (bumpStats st color).gamesPlayed = st.gamesPlayed + 1) ∧
    (checkWin row col (setCell g.board row col (Cell.stone color)) color = false →
      (makeMoveH s gid col color now).1.playerStats = s.playerStats) := by
  obtain ⟨hnone, hgames, hstats⟩ :=
    makeMoveH_success_fields s gid col color now g row hg hw ht hr hy hc hrow
  refine ⟨hnone, ?_, ?_⟩
  · intro hwin
    rw [hstats, if_pos hwin]
    refine ⟨?_, ?_, ?_, ?_⟩
    · simp only [updatePlayerStatsH, hst]
      rw [alookup_aset, if_pos rfl]
    · cases color <;> rfl
    · cases color <;> rfl
    · cases color <;> rfl
  · intro hnwin
    have hnw : ¬ checkWin row col (setCell g.board row col (Cell.stone color)) color = true := by
      rw [hnwin]
      exact Bool.false_ne_true
    rw [hstats, if_neg hnw]

def c4Game : GameState :=
  { board := [e7, e7, e7,
      [Cell.empty, Cell.empty, Cell.empty, Cell.empty, Cell.empty, Cell.empty,
       Cell.stone Color.yellow],
      [Cell.empty, Cell.empty, Cell.empty, Cell.empty, Cell.empty, Cell.empty,
       Cell.stone Color.yellow],
      [Cell.stone Color.red, Cell.stone Color.red, Cell.stone Color.red, Cell.empty,
       Cell.empty, Cell.empty, Cell.stone Color.yellow]],
    currentPlayer := Color.red,
    players := { red := some "ma", redName := some "MA",
                 yellow := some "mb", yellowName := some "MB" },
    winner := none, winningCells := [], status := Status.playing,
    createdAt := 0, lastMoveAt := some 50, moves := 6, originalGameId := "M", gameNumber := 4 }

def c4Stats : SeriesStats :=
  { seriesId := "M", red := { id := some "ma", name := some "MA", wins := 2 },
    yellow := { id := some "mb", name := some "MB", wins := 1 }, gamesPlayed := 3 }

def c4S : ServerState :=
  { games := [("M", c4Game)], playerStats := [("M", c4Stats)], playerNames := [],
    pendingRematches := [] }

/-- Witness for C4: red completes a horizontal four in column 3; the red
    counter goes 2 to 3 and gamesPlayed 3 to 4. -/
theorem makeMove_stats_witness :
    (alookup c4S.games "M" = some c4Game ∧ c4Game.winner = none ∧
     c4Game.currentPlayer = Color.red ∧ findRow c4Game.board 3 = some 5 ∧
     alookup c4S.playerStats "M" = some c4Stats ∧
     checkWin 5 3 (setCell c4Game.board 5 3 (Cell.stone Color.red)) Color.red = true) ∧
    ((makeMoveH c4S "M" 3 Color.red 77).2 = none ∧
     (checkWin 5 3 (setCell c4Game.board 5 3 (Cell.stone Color.red)) Color.red = true →
       alookup (makeMoveH c4S "M" 3 Color.red 77).1.playerStats c4Game.originalGameId
         = some (bumpStats c4Stats Color.red) ∧
       winsOf (bumpStats c4Stats Color.red) Color.red = winsOf c4Stats Color.red + 1 ∧
       winsOf (bumpStats c4Stats Color.red) (oppColor Color.red)
         = winsOf c4Stats (oppColor Color.red) ∧
       (bumpStats c4Stats Color.red).gamesPlayed = c4Stats.gamesPlayed + 1) ∧
     (checkWin 5 3 (setCell c4Game.board 5 3 (Cell.stone Color.red)) Color.red = false →
       (makeMoveH c4S "M" 3 Color.red 77).1.playerStats = c4S.playerStats)) :=
  ⟨by decide,
   makeMove_stats c4S "M" 3 Color.red 77 c4Game 5 c4Stats (by decide) (by decide)
     (by decide) (by decide) (by decide) (by decide) (by decide) (by decide)⟩

/- C7: turn alternation and terminal status. -/

theorem applyMove_win (g : GameState) (row col : Int) (color : Color) (now : Int)
    (h : checkWin row col (setCell g.board row col (Cell.stone color)) color = true) :
    (applyMove g row col color now).status = Status.finished ∧
    (applyMove g row col color now).currentPlayer = g.currentPlayer := by
  unfold applyMove
  rw [if_pos h]
  exact ⟨rfl, rfl⟩

theorem applyMove_draw (g : GameState) (row col : Int) (color : Color) (now : Int)
    (hn : checkWin row col (setCell g.board row col (Cell.stone color)) color = false)
    (hf : isBoardFull (setCell g.board row col (Cell.stone color)) = true) :
    (applyMove g row col color now).status = Status.finished ∧
    (applyMove g row col color now).currentPlayer = g.currentPlayer := by
  unfold applyMove
  rw [if_neg (by rw [hn]; exact Bool.false_ne_true), if_pos hf]
  exact ⟨rfl, rfl⟩

theorem applyMove_flip (g : GameState) (row col : Int) (color : Color) (now : Int)
    (hn : checkWin row col (setCell g.board row col (Cell.stone color)) color = false)
    (hf : isBoardFull (setCell g.board row col (Cell.stone color)) = false) :
    (applyMove g row col color now).status = g.status ∧
    (applyMove g row col color now).currentPlayer = oppColor color := by
  unfold applyMove
  rw [if_neg (by rw [hn]; exact Bool.false_ne_true),
    if_neg (by rw [hf]; exact Bool.false_ne_true)]
  exact ⟨rfl, rfl⟩

/-- C7: after a successful non-terminal move by color c the current turn
    becomes the opposite of c; after a terminal move — win or board full —
    the status becomes finished and the current turn is not flipped (it
    stays c, the mover, since validation required currentPlayer = c). -/
theorem makeMove_turn (s : ServerState) (gid : String) (col : Int) (color : Color)
    (now : Int) (g : GameState) (row : Int)
    (hg : alookup s.games gid = some g) (hw : g.winner = none)
    (ht : g.currentPlayer = color) (hr : g.players.red.isSome = true)
    (hy : g.players.yellow.isSome = true) (hc : ¬(col < 0 ∨ col > 6))
    (hrow : findRow g.board col = some row) :
    (makeMoveH s gid col color now).2 = none ∧
    (checkWin row col (setCell g.board row col (Cell.stone color)) color = false ∧
       isBoardFull (setCell g.board row col (Cell.stone color)) = false →
      (alookup (makeMoveH s gid col color now).1.games gid).map GameState.currentPlayer
        = some (oppColor color)) ∧
    (checkWin row col (setCell g.board row col (Cell.stone color)) color = true ∨
       isBoardFull (setCell g.board row col (Cell.stone color)) = true →
      (alookup (makeMoveH s gid col color now).1.games gid).map GameState.status
        = some Status.finished ∧
      (alookup (makeMoveH s gid col color now).1.games gid).map GameState.currentPlayer
        = some color) := by
  obtain ⟨hnone, hgames, hstats⟩ :=
    makeMoveH_success_fields s gid col color now g row hg hw ht hr hy hc hrow
  have hlook : alookup (makeMoveH s gid col color now).1.games gid
      = some (applyMove g row col color now) := by
    rw [hgames, alookup_aset, if_pos rfl]
  refine ⟨hnone, ?_, ?_⟩
  · rintro ⟨hn, hf⟩
    rw [hlook, Option.map_some']
    rw [(applyMove_flip g row col color now hn hf).2]
  · intro hterm
    rw [hlook, Option.map_some', Option.map_some']
    rcases hterm with hwin | hfull
    · have := applyMove_win g row col color now hwin
      rw [this.1, this.2, ht]
      exact ⟨rfl, rfl⟩
    · by_cases hwin : checkWin row col (setCell g.board row col (Cell.stone color)) color = true
      · have := applyMove_win g row col color now hwin
        rw [this.1, this.2, ht]
        exact ⟨rfl, rfl⟩
      · have hn : checkWin row col (setCell g.board row col (Cell.stone color)) color
            = false := by
          cases hcw : checkWin row col (setCell g.board row col (Cell.stone color)) color
          · rfl
          · exact absurd hcw hwin
        have := applyMove_draw g row col color now hn hfull
        rw [this.1, this.2, ht]
        exact ⟨rfl, rfl⟩

def c7Game : GameState :=
  { board := [e7, e7,
      [Cell.empty, Cell.stone Color.yellow, Cell.empty, Cell.empty, Cell.empty, Cell.empty,
       Cell.empty],
      [Cell.empty, Cell.stone Color.yellow, Cell.empty, Cell.empty, Cell.stone Color.yellow,
       Cell.empty, Cell.empty],
      [Cell.empty, Cell.stone Color.yellow, Cell.empty, Cell.empty, Cell.stone Color.red,
       Cell.empty, Cell.empty],
      [Cell.stone Color.red, Cell.stone Color.yellow, Cell.empty, Cell.empty,
       Cell.stone Color.red, Cell.stone Color.red, Cell.empty]],
    currentPlayer := Color.yellow,
    players := { red := some "ta", redName := some "TA",
                 yellow := some "tb", yellowName := some "TB" },
    winner := none, winningCells := [], status := Status.playing,
    createdAt := 0, lastMoveAt := some 60, moves := 8, originalGameId := "T", gameNumber := 1 }

def c7S : ServerState :=
  { games := [("T", c7Game)], playerStats := [], playerNames := [], pendingRematches := [] }

/-- Witness for C7: yellow completes a vertical four in column 1; the status
    becomes finished and the turn is not flipped. -/
theorem makeMove_turn_witness :
    (alookup c7S.games "T" = some c7Game ∧ c7Game.winner = none ∧
     c7Game.currentPlayer = Color.yellow ∧ findRow c7Game.board 1 = some 1 ∧
     checkWin 1 1 (setCell c7Game.board 1 1 (Cell.stone Color.yellow)) Color.yellow = true) ∧
    ((makeMoveH c7S "T" 1 Color.yellow 99).2 = none ∧
     (checkWin 1 1 (setCell c7Game.board 1 1 (Cell.stone Color.yellow)) Color.yellow = false ∧
        isBoardFull (setCell c7Game.board 1 1 (Cell.stone Color.yellow)) = false →
       (alookup (makeMoveH c7S "T" 1 Color.yellow 99).1.games "T").map GameState.currentPlayer
         = some (oppColor Color.yellow)) ∧
     (checkWin 1 1 (setCell c7Game.board 1 1 (Cell.stone Color.yellow)) Color.yellow = true ∨
        isBoardFull (setCell c7Game.board 1 1 (Cell.stone Color.yellow)) = true →
       (alookup (makeMoveH c7S "T" 1 Color.yellow 99).1.games "T").map GameState.status
         = some Status.finished ∧
       (alookup (makeMoveH c7S "T" 1 Color.yellow 99).1.games "T").map GameState.currentPlayer
         = some Color.yellow)) :=
  ⟨by decide,
   makeMove_turn c7S "T" 1 Color.yellow 99 c7Game 1 (by decide) (by decide) (by decide)
     (by decide) (by decide) (by decide) (by decide)⟩

/- C8: the move counter equals the number of occupied cells. -/

/-- Number of non-empty cells in one row. -/
def rowCount (l : List Cell) : Nat := l.countP fun cell => !(cell == Cell.empty)

/-- Number of non-empty cells on the board. -/
def countStones (b : Board) : Nat := (b.map rowCount).sum

/-- The 6x7 shape every stored board has. -/
def boardWF (b : Board) : Prop := b.length = 6 ∧ ∀ r ∈ b, r.length = 7

theorem emptyBoard_wf : boardWF emptyBoard := by
  constructor
  · rfl
  · intro r hr
    rw [List.eq_of_mem_replicate hr]
    rfl

theorem emptyBoard_count : countStones emptyBoard = 0 := rfl

theorem getD_mem {α : Type} (l : List α) (i : Nat) (d : α) (h : i < l.length) :
    l.getD i d ∈ l := by
  induction l generalizing i with
  | nil => simp at h
  | cons x xs ih =>
      cases i with
      | zero =>
          rw [List.getD_cons_zero]
          exact List.mem_cons_self x xs
      | succ n =>
          rw [List.getD_cons_succ]
          exact List.mem_cons_of_mem x (ih n (by simpa using h))

theorem rowCount_set (l : List Cell) (j : Nat) (v : Cell) (hj : j < l.length)
    (hemp : l.getD j Cell.empty = Cell.empty) (hv : (v == Cell.empty) = false) :
    rowCount (l.set j v) = rowCount l + 1 := by
  induction l generalizing j with
  | nil => simp at hj
  | cons x xs ih =>
      cases j with
      | zero =>
          rw [List.getD_cons_zero] at hemp
          subst hemp
          simp [rowCount, List.set_cons_zero, List.countP_cons, hv]
      | succ n =>
          rw [List.getD_cons_succ] at hemp
          rw [List.set_cons_succ]
          simp only [rowCount, List.countP_cons] at *
          rw [ih n (by simpa using hj) hemp]
          omega

theorem countStones_set (b : Board) (i : Nat) (r2 : List Cell) (hi : i < b.length)
    (hr : rowCount r2 = rowCount (b.getD i []) + 1) :
    countStones (b.set i r2) = countStones b + 1 := by
  induction b generalizing i with
  | nil => simp at hi
  | cons x xs ih =>
      cases i with
      | zero =>
          rw [List.getD_cons_zero] at hr
          simp only [countStones, List.set_cons_zero, List.map_cons, List.sum_cons]
          rw [hr]
          omega
      | succ n =>
          rw [List.getD_cons_succ] at hr
          simp only [countStones, List.set_cons_succ, List.map_cons, List.sum_cons]
          have := ih n (by simpa using hi) hr
          simp only [countStones] at this
          omega

theorem countStones_setCell (b : Board) (row col : Int) (p : Color)
    (hwf : boardWF b) (hr0 : 0 ≤ row) (hr6 : row < 6) (hc0 : 0 ≤ col) (hc7 : col < 7)
    (hemp : cellAtRaw b row col = Cell.empty) :
    countStones (setCell b row col (Cell.stone p)) = countStones b + 1 ∧
    boardWF (setCell b row col (Cell.stone p)) := by
  obtain ⟨hlen, hrows⟩ := hwf
  have hi : row.toNat < b.length := by omega
  have hRlen : (b.getD row.toNat []).length = 7 := hrows _ (getD_mem b row.toNat [] hi)
  have hj : col.toNat < (b.getD row.toNat []).length := by omega
  refine ⟨?_, ?_, ?_⟩
  · exact countStones_set b row.toNat _ hi (rowCount_set _ col.toNat _ hj hemp rfl)
  · rw [setCell, List.length_set]
    exact hlen
  · intro r hr
    rcases List.mem_or_eq_of_mem_set hr with hmem | heq
    · exact hrows r hmem
    · rw [heq, List.length_set]
      exact hRlen

theorem findRow_mem (b : Board) (col : Int) (row : Int) (h : findRow b col = some row) :
    (0 ≤ row ∧ row < 6) ∧ cellAtRaw b row col = Cell.empty := by
  unfold findRow at h
  constructor
  · have hm := List.mem_of_find?_eq_some h
    simp only [List.mem_cons, List.not_mem_nil, or_false] at hm
    rcases hm with rfl | rfl | rfl | rfl | rfl | rfl <;> constructor <;> norm_num
  · have hp := List.find?_some h
    simpa using hp

/- Decompositions of joinGame and leaveGame. -/

/-- The mutation joinGame applies to the session it fills. -/
def joinedGame (g0 : GameState) (conn pname : String) : GameState :=
  { g0 with
    players := { g0.players with yellow := some conn, yellowName := some pname },
    status := Status.playing }

theorem joinGameH_cases (s : ServerState) (conn gid0 : String) :
    (joinGameH s conn gid0).1 = s ∨
    ∃ g0, alookup s.games gid0 = some g0 ∧ g0.players.yellow = none ∧
      (joinGameH s conn gid0).1.games
        = aset s.games gid0 (joinedGame g0 conn (lookupName s conn)) := by
  unfold joinGameH
  split
  · exact Or.inl rfl
  · rename_i g0 hgm
    split
    · exact Or.inl rfl
    · rename_i hy
      exact Or.inr ⟨g0, hgm, hy, rfl⟩

theorem leaveGameH_cases (s : ServerState) (conn gid0 : String) :
    (leaveGameH s conn gid0).1 = s ∨
    ∃ g0, alookup s.games gid0 = some g0 ∧
      (leaveGameH s conn gid0).1.games = aset s.games gid0 (abandonFor g0 conn) := by
  unfold leaveGameH
  split
  · exact Or.inl rfl
  · rename_i g0 hgm
    exact Or.inr ⟨g0, hgm, rfl⟩

/-- C8 invariant: every stored session has a 6x7 board whose non-empty cell
    count equals its move counter. -/
def MovesInv (s : ServerState) : Prop :=
  ∀ gid g, alookup s.games gid = some g →
    boardWF g.board ∧ g.moves = countStones g.board

theorem movesInv_step (s : ServerState) (e : Event) (hinv : MovesInv s) :
    MovesInv (step s e).1 := by
  cases e with
  | setPlayerName conn name =>
      intro gid g hg
      rw [show (step s (Event.setPlayerName conn name)).1.games = s.games from
        setPlayerNameH_games s conn name] at hg
      exact hinv gid g hg
  | createGame conn gid0 now =>
      intro gid g hg
      rw [show (step s (Event.createGame conn gid0 now)).1.games
          = aset s.games gid0 (newGame gid0 conn (lookupName s conn) now) from rfl,
        alookup_aset] at hg
      by_cases hk : gid0 = gid
      · rw [if_pos hk] at hg
        injection hg with hg2
        rw [← hg2]
        exact ⟨emptyBoard_wf, emptyBoard_count.symm⟩
      · rw [if_neg hk] at hg
        exact hinv gid g hg
  | joinGame conn gid0 =>
      intro gid g hg
      rcases joinGameH_cases s conn gid0 with h1 | ⟨g0, hgm, hy0, hgames⟩
      · rw [show (step s (Event.joinGame conn gid0)).1 = (joinGameH s conn gid0).1 from rfl,
          h1] at hg
        exact hinv gid g hg
      · rw [show (step s (Event.joinGame conn gid0)).1.games
            = (joinGameH s conn gid0).1.games from rfl, hgames, alookup_aset] at hg
        by_cases hk : gid0 = gid
        · rw [if_pos hk] at hg
          injection hg with hg2
          obtain ⟨hwf, hm⟩ := hinv gid0 g0 hgm
          rw [← hg2]
          exact ⟨hwf, hm⟩
        · rw [if_neg hk] at hg
          exact hinv gid g hg
  | makeMove conn gid0 col color now =>
      intro gid g hg
      rcases makeMoveH_cases s gid0 col color now with
        h1 | ⟨g0, row, hgm, hw0, hc0, hrow0, hgames, hstats⟩
      · rw [show (step s (Event.makeMove conn gid0 col color now)).1
            = (makeMoveH s gid0 col color now).1 from rfl, h1] at hg
        exact hinv gid g hg
      · rw [show (step s (Event.makeMove conn gid0 col color now)).1.games
            = (makeMoveH s gid0 col color now).1.games from rfl, hgames, alookup_aset] at hg
        by_cases hk : gid0 = gid
        · rw [if_pos hk] at hg
          injection hg with hg2
          obtain ⟨hwf, hm⟩ := hinv gid0 g0 hgm
          obtain ⟨⟨hrn0, hrn6⟩, hemp⟩ := findRow_mem g0.board col row hrow0
          have hcol0 : 0 ≤ col := by omega
          have hcol7 : col < 7 := by omega
          obtain ⟨hcount, hwf2⟩ :=
            countStones_setCell g0.board row col color hwf hrn0 hrn6 hcol0 hcol7 hemp
          rw [← hg2]
          constructor
          · rw [applyMove_board]
            exact hwf2
          · rw [applyMove_moves, applyMove_board, hcount, hm]
        · rw [if_neg hk] at hg
          exact hinv gid g hg
  | requestRematch conn gid0 now =>
      intro gid g hg
      rw [show (step s (Event.requestRematch conn gid0 now)).1.games = s.games from
        requestRematchH_games s conn gid0 now] at hg
      exact hinv gid g hg
  | acceptRematch conn gid0 newGid now =>
      intro gid g hg
      rcases acceptRematchH_cases s conn gid0 newGid now with
        h1 | ⟨g0, st, hgm, hst, hgames, hstats⟩
      · rw [show (step s (Event.acceptRematch conn gid0 newGid now)).1
            = (acceptRematchH s conn gid0 newGid now).1 from rfl, h1] at hg
        exact hinv gid g hg
      · rw [show (step s (Event.acceptRematch conn gid0 newGid now)).1.games
            = (acceptRematchH s conn gid0 newGid now).1.games from rfl, hgames,
          alookup_aremove] at hg
        by_cases hk : gid0 = gid
        · rw [if_pos hk] at hg
          exact Option.noConfusion hg
        · rw [if_neg hk, alookup_aset] at hg
          by_cases hk2 : newGid = gid
          · rw [if_pos hk2] at hg
            injection hg with hg2
            rw [← hg2]
            exact ⟨emptyBoard_wf, emptyBoard_count.symm⟩
          · rw [if_neg hk2] at hg
            exact hinv gid g hg
  | declineRematch conn gid0 =>
      intro gid g hg
      rw [show (step s (Event.declineRematch conn gid0)).1.games = s.games from
        declineRematchH_games s gid0] at hg
      exact hinv gid g hg
  | leaveGame conn gid0 =>
      intro gid g hg
      rcases leaveGameH_cases s conn gid0 with h1 | ⟨g0, hgm, hgames⟩
      · rw [show (step s (Event.leaveGame conn gid0)).1 = (leaveGameH s conn gid0).1 from rfl,
          h1] at hg
        exact hinv gid g hg
      · rw [show (step s (Event.leaveGame conn gid0)).1.games
            = (leaveGameH s conn gid0).1.games from rfl, hgames, alookup_aset] at hg
        by_cases hk : gid0 = gid
        · rw [if_pos hk] at hg
          injection hg with hg2
          obtain ⟨hwf, hm⟩ := hinv gid0 g0 hgm
          rw [← hg2]
          constructor
          · rw [(abandonFor_board g0 conn).1]
            exact hwf
          · rw [(abandonFor_board g0 conn).2, (abandonFor_board g0 conn).1]
            exact hm
        · rw [if_neg hk] at hg
          exact hinv gid g hg
  | disconnect conn =>
      intro gid g hg
      rw [show (step s (Event.disconnect conn)).1.games
          = s.games.map (fun e2 => (e2.1, disconnectGame conn e2.2)) from rfl,
        alookup_mapval] at hg
      cases hgm : alookup s.games gid with
      | none =>
          rw [hgm] at hg
          exact Option.noConfusion hg
      | some g0 =>
          rw [hgm, Option.map_some'] at hg
          injection hg with hg2
          obtain ⟨hwf, hm⟩ := hinv gid g0 hgm
          rw [← hg2]
          constructor
          · rw [(disconnectGame_board conn g0).1]
            exact hwf
          · rw [(disconnectGame_board conn g0).2, (disconnectGame_board conn g0).1]
            exact hm
  | expireGame gid0 =>
      intro gid g hg
      rw [show (step s (Event.expireGame gid0)).1.games = aremove s.games gid0 from rfl,
        alookup_aremove] at hg
      by_cases hk : gid0 = gid
      · rw [if_pos hk] at hg
        exact Option.noConfusion hg
      · rw [if_neg hk] at hg
        exact hinv gid g hg
  | expireRematch gid0 =>
      intro gid g hg
      exact hinv gid g hg

theorem reachable_movesInv (s : ServerState) (h : Reachable s) : MovesInv s := by
  induction h with
  | init =>
      intro gid g hg
      exact Option.noConfusion hg
  | next s2 e hs ih => exact movesInv_step s2 e ih

/-- C8: in every reachable server state, every stored session has its moves
    counter equal to the number of non-empty cells on its board: sessions are
    created with empty boards and zero moves, and the only board mutation, a
    successful makeMove, fills one empty cell and bumps moves by one. -/
theorem moves_eq_cells (s : ServerState) (hs : Reachable s) (gid : String) (g : GameState)
    (hg : alookup s.games gid = some g) : g.moves = countStones g.board :=
  (reachable_movesInv s hs gid g hg).2

def c8Events : List Event :=
  [Event.createGame "ha" "V" 0, Event.joinGame "hb" "V",
   Event.makeMove "ha" "V" 3 Color.red 1]

def c8S : ServerState := runEvents initialState c8Events

def c8Game : GameState := (alookup c8S.games "V").getD noGame

/-- Witness for C8: after create, join and one move, the stored session has
    moves = 1 = occupied cells. -/
theorem moves_eq_cells_witness :
    (alookup c8S.games "V" = some c8Game ∧ c8Game.moves = 1) ∧
    c8Game.moves = countStones c8Game.board :=
  ⟨by decide,
   moves_eq_cells c8S (reachable_run initialState c8Events Reachable.init) "V" c8Game
     (by decide)⟩

/- C2: stability of finished sessions. -/

theorem applyMove_status_cases (g : GameState) (row col : Int) (color : Color) (now : Int) :
    ((applyMove g row col color now).status = Status.finished ∧
     (applyMove g row col color now).winner.isSome = true) ∨
    ((applyMove g row col color now).status = g.status ∧
     (applyMove g row col color now).winner = g.winner) := by
  unfold applyMove
  split_ifs
  · exact Or.inl ⟨rfl, rfl⟩
  · exact Or.inl ⟨rfl, rfl⟩
  · exact Or.inr ⟨rfl, rfl⟩

/-- Every finished session has its winner set. -/
def FinInv (s : ServerState) : Prop :=
  ∀ gid g, alookup s.games gid = some g → g.status = Status.finished →
    g.winner.isSome = true

theorem finInv_step (s : ServerState) (e : Event) (hinv : FinInv s) :
    FinInv (step s e).1 := by
  cases e with
  | setPlayerName conn name =>
      intro gid g hg hfin
      rw [show (step s (Event.setPlayerName conn name)).1.games = s.games from
        setPlayerNameH_games s conn name] at hg
      exact hinv gid g hg hfin
  | createGame conn gid0 now =>
      intro gid g hg hfin
      rw [show (step s (Event.createGame conn gid0 now)).1.games
          = aset s.games gid0 (newGame gid0 conn (lookupName s conn) now) from rfl,
        alookup_aset] at hg
      by_cases hk : gid0 = gid
      · rw [if_pos hk] at hg
        injection hg with hg2
        rw [← hg2] at hfin
        simp [newGame] at hfin
      · rw [if_neg hk] at hg
        exact hinv gid g hg hfin
  | joinGame conn gid0 =>
      intro gid g hg hfin
      rcases joinGameH_cases s conn gid0 with h1 | ⟨g0, hgm, hy0, hgames⟩
      · rw [show (step s (Event.joinGame conn gid0)).1 = (joinGameH s conn gid0).1 from rfl,
          h1] at hg
        exact hinv gid g hg hfin
      · rw [show (step s (Event.joinGame conn gid0)).1.games
            = (joinGameH s conn gid0).1.games from rfl, hgames, alookup_aset] at hg
        by_cases hk : gid0 = gid
        · rw [if_pos hk] at hg
          injection hg with hg2
          rw [← hg2] at hfin
          simp [joinedGame] at hfin
        · rw [if_neg hk] at hg
          exact hinv gid g hg hfin
  | makeMove conn gid0 col color now =>
      intro gid g hg hfin
      rcases makeMoveH_cases s gid0 col color now with
        h1 | ⟨g0, row, hgm, hw0, hc0, hrow0, hgames, hstats⟩
      · rw [show (step s (Event.makeMove conn gid0 col color now)).1
            = (makeMoveH s gid0 col color now).1 from rfl, h1] at hg
        exact hinv gid g hg hfin
      · rw [show (step s (Event.makeMove conn gid0 col color now)).1.games
            = (makeMoveH s gid0 col color now).1.games from rfl, hgames, alookup_aset] at hg
        by_cases hk : gid0 = gid
        · rw [if_pos hk] at hg
          injection hg with hg2
          rcases applyMove_status_cases g0 row col color now with ⟨_, hws⟩ | ⟨hst2, hwr⟩
          · rw [← hg2]
            exact hws
          · have hfin0 : g0.status = Status.finished := by
              rw [← hst2, hg2]
              exact hfin
            have hcontra := hinv gid0 g0 hgm hfin0
            rw [hw0] at hcontra
            simp at hcontra
        · rw [if_neg hk] at hg
          exact hinv gid g hg hfin
  | requestRematch conn gid0 now =>
      intro gid g hg hfin
      rw [show (step s (Event.requestRematch conn gid0 now)).1.games = s.games from
        requestRematchH_games s conn gid0 now] at hg
      exact hinv gid g hg hfin
  | acceptRematch conn gid0 newGid now =>
      intro gid g hg hfin
      rcases acceptRematchH_cases s conn gid0 newGid now with
        h1 | ⟨g0, st, hgm, hst, hgames, hstats⟩
      · rw [show (step s (Event.acceptRematch conn gid0 newGid now)).1
            = (acceptRematchH s conn gid0 newGid now).1 from rfl, h1] at hg
        exact hinv gid g hg hfin
      · rw [show (step s (Event.acceptRematch conn gid0 newGid now)).1.games
            = (acceptRematchH s conn gid0 newGid now).1.games from rfl, hgames,
          alookup_aremove] at hg
        by_cases hk : gid0 = gid
        · rw [if_pos hk] at hg
          exact Option.noConfusion hg
        · rw [if_neg hk, alookup_aset] at hg
          by_cases hk2 : newGid = gid
          · rw [if_pos hk2] at hg
            injection hg with hg2
            rw [← hg2] at hfin
            simp [rematchGame] at hfin
          · rw [if_neg hk2] at hg
            exact hinv gid g hg hfin
  | declineRematch conn gid0 =>
      intro gid g hg hfin
      rw [show (step s (Event.declineRematch conn gid0)).1.games = s.games from
        declineRematchH_games s gid0] at hg
      exact hinv gid g hg hfin
  | leaveGame conn gid0 =>
      intro gid g hg hfin
      rcases leaveGameH_cases s conn gid0 with h1 | ⟨g0, hgm, hgames⟩
      · rw [show (step s (Event.leaveGame conn gid0)).1 = (leaveGameH s conn gid0).1 from rfl,
          h1] at hg
        exact hinv gid g hg hfin
      · rw [show (step s (Event.leaveGame conn gid0)).1.games
            = (leaveGameH s conn gid0).1.games from rfl, hgames, alookup_aset] at hg
        by_cases hk : gid0 = gid
        · rw [if_pos hk] at hg
          injection hg with hg2
          have hfin0 : (abandonFor g0 conn).status = Status.finished := by
            rw [hg2]
            exact hfin
          have heq := abandonFor_eq_of_finished g0 conn hfin0
          rw [heq] at hg2
          rw [← hg2]
          exact hinv gid0 g0 hgm (by rw [hg2]; exact hfin)
        · rw [if_neg hk] at hg
          exact hinv gid g hg hfin
  | disconnect conn =>
      intro gid g hg hfin
      rw [show (step s (Event.disconnect conn)).1.games
          = s.games.map (fun e2 => (e2.1, disconnectGame conn e2.2)) from rfl,
        alookup_mapval] at hg
      cases hgm : alookup s.games gid with
      | none =>
          rw [hgm] at hg
          exact Option.noConfusion hg
      | some g0 =>
          rw [hgm, Option.map_some'] at hg
          injection hg with hg2
          have hfin0 : (disconnectGame conn g0).status = Status.finished := by
            rw [hg2]
            exact hfin
          have heq := disconnectGame_eq_of_finished conn g0 hfin0
          rw [heq] at hg2
          rw [← hg2]
          exact hinv gid g0 hgm (by rw [hg2]; exact hfin)
  | expireGame gid0 =>
      intro gid g hg hfin
      rw [show (step s (Event.expireGame gid0)).1.games = aremove s.games gid0 from rfl,
        alookup_aremove] at hg
      by_cases hk : gid0 = gid
      · rw [if_pos hk] at hg
        exact Option.noConfusion hg
      · rw [if_neg hk] at hg
        exact hinv gid g hg hfin
  | expireRematch gid0 =>
      intro gid g hg hfin
      exact hinv gid g hg hfin

theorem reachable_finInv (s : ServerState) (h : Reachable s) : FinInv s := by
  induction h with
  | init =>
      intro gid g hg
      exact Option.noConfusion hg
  | next s2 e hs ih => exact finInv_step s2 e ih

/-- The exceptional events of the amended C2, relative to the session
    (gid, g) under observation. -/
def statusException (e : Event) (gid : String) (g : GameState) : Prop :=
  match e with
  | Event.createGame _ gid' _ => gid' = gid
  | Event.joinGame _ gid' => gid' = gid ∧ g.players.yellow = none
  | Event.acceptRematch _ _ newGid _ => newGid = gid
  | Event.leaveGame conn gid' => gid' = gid ∧ seatedIn conn g
  | Event.disconnect conn => seatedIn conn g
  | _ => False

/-- C2 (amended): in a reachable state, an inbound event never moves a
    session whose status is finished to another status nor changes its set
    winner, except: leaveGame or disconnect by a connection seated in the
    session (which abandon it and overwrite the winner with the other
    color), joinGame refilling an empty yellow seat, and createGame or
    acceptRematch whose randomly generated id collides with the session id
    (collisions are documented as undefended). -/
theorem finished_stable (s : ServerState) (hs : Reachable s) (e : Event)
    (gid : String) (g g' : GameState)
    (hg : alookup s.games gid = some g) (hfin : g.status = Status.finished)
    (hg' : alookup (step s e).1.games gid = some g')
    (hex : ¬ statusException e gid g) :
    g'.status = Status.finished ∧ g'.winner = g.winner := by
  cases e with
  | setPlayerName conn name =>
      rw [show (step s (Event.setPlayerName conn name)).1.games = s.games from
        setPlayerNameH_games s conn name, hg] at hg'
      injection hg' with h2
      rw [← h2]
      exact ⟨hfin, rfl⟩
  | createGame conn gid0 now =>
      rw [show (step s (Event.createGame conn gid0 now)).1.games
          = aset s.games gid0 (newGame gid0 conn (lookupName s conn) now) from rfl,
        alookup_aset, if_neg (fun hh : gid0 = gid => hex hh), hg] at hg'
      injection hg' with h2
      rw [← h2]
      exact ⟨hfin, rfl⟩
  | joinGame conn gid0 =>
      rcases joinGameH_cases s conn gid0 with h1 | ⟨g0, hgm, hy0, hgames⟩
      · rw [show (step s (Event.joinGame conn gid0)).1 = (joinGameH s conn gid0).1 from rfl,
          h1, hg] at hg'
        injection hg' with h2
        rw [← h2]
        exact ⟨hfin, rfl⟩
      · rw [show (step s (Event.joinGame conn gid0)).1.games
            = (joinGameH s conn gid0).1.games from rfl, hgames, alookup_aset] at hg'
        by_cases hk : gid0 = gid
        · rw [hk, hg] at hgm
          injection hgm with h3
          exact absurd ⟨hk, by rw [h3]; exact hy0⟩ hex
        · rw [if_neg hk, hg] at hg'
          injection hg' with h2
          rw [← h2]
          exact ⟨hfin, rfl⟩
  | makeMove conn gid0 col color now =>
      rcases makeMoveH_cases s gid0 col color now with
        h1 | ⟨g0, row, hgm, hw0, hc0, hrow0, hgames, hstats⟩
      · rw [show (step s (Event.makeMove conn gid0 col color now)).1
            = (makeMoveH s gid0 col color now).1 from rfl, h1, hg] at hg'
        injection hg' with h2
        rw [← h2]
        exact ⟨hfin, rfl⟩
      · by_cases hk : gid0 = gid
        · rw [hk, hg] at hgm
          injection hgm with h3
          have hws := reachable_finInv s hs gid g hg hfin
          rw [h3, hw0] at hws
          simp at hws
        · rw [show (step s (Event.makeMove conn gid0 col color now)).1.games
              = (makeMoveH s gid0 col color now).1.games from rfl, hgames, alookup_aset,
            if_neg hk, hg] at hg'
          injection hg' with h2
          rw [← h2]
          exact ⟨hfin, rfl⟩
  | requestRematch conn gid0 now =>
      rw [show (step s (Event.requestRematch conn gid0 now)).1.games = s.games from
        requestRematchH_games s conn gid0 now, hg] at hg'
      injection hg' with h2
      rw [← h2]
      exact ⟨hfin, rfl⟩
  | acceptRematch conn gid0 newGid now =>
      rcases acceptRematchH_cases s conn gid0 newGid now with
        h1 | ⟨g0, st, hgm, hst, hgames, hstats⟩
      · rw [show (step s (Event.acceptRematch conn gid0 newGid now)).1
            = (acceptRematchH s conn gid0 newGid now).1 from rfl, h1, hg] at hg'
        injection hg' with h2
        rw [← h2]
        exact ⟨hfin, rfl⟩
      · rw [show (step s (Event.acceptRematch conn gid0 newGid now)).1.games
            = (acceptRematchH s conn gid0 newGid now).1.games from rfl, hgames,
          alookup_aremove] at hg'
        by_cases hk : gid0 = gid
        · rw [if_pos hk] at hg'
          exact Option.noConfusion hg'
        · rw [if_neg hk, alookup_aset, if_neg (fun hh : newGid = gid => hex hh), hg] at hg'
          injection hg' with h2
          rw [← h2]
          exact ⟨hfin, rfl⟩
  | declineRematch conn gid0 =>
      rw [show (step s (Event.declineRematch conn gid0)).1.games = s.games from
        declineRematchH_games s gid0, hg] at hg'
      injection hg' with h2
      rw [← h2]
      exact ⟨hfin, rfl⟩
  | leaveGame conn gid0 =>
      rcases leaveGameH_cases s conn gid0 with h1 | ⟨g0, hgm, hgames⟩
      · rw [show (step s (Event.leaveGame conn gid0)).1 = (leaveGameH s conn gid0).1 from rfl,
          h1, hg] at hg'
        injection hg' with h2
        rw [← h2]
        exact ⟨hfin, rfl⟩
      · rw [show (step s (Event.leaveGame conn gid0)).1.games
            = (leaveGameH s conn gid0).1.games from rfl, hgames, alookup_aset] at hg'
        by_cases hk : gid0 = gid
        · rw [if_pos hk] at hg'
          injection hg' with h2
          rw [hk, hg] at hgm
          injection hgm with h3
          have hns : ¬ seatedIn conn g0 := fun hseat => hex ⟨hk, h3 ▸ hseat⟩
          rw [abandonFor_not_seated g0 conn hns] at h2
          rw [← h2, h3]
          exact ⟨by rw [← h3]; exact hfin, rfl⟩
        · rw [if_neg hk, hg] at hg'
          injection hg' with h2
          rw [← h2]
          exact ⟨hfin, rfl⟩
  | disconnect conn =>
      rw [show (step s (Event.disconnect conn)).1.games
          = s.games.map (fun e2 => (e2.1, disconnectGame conn e2.2)) from rfl,
        alookup_mapval, hg, Option.map_some'] at hg'
      injection hg' with h2
      rw [disconnectGame_not_seated conn g hex] at h2
      rw [← h2]
      exact ⟨hfin, rfl⟩
  | expireGame gid0 =>
      rw [show (step s (Event.expireGame gid0)).1.games = aremove s.games gid0 from rfl,
        alookup_aremove] at hg'
      by_cases hk : gid0 = gid
      · rw [if_pos hk] at hg'
        exact Option.noConfusion hg'
      · rw [if_neg hk, hg] at hg'
        injection hg' with h2
        rw [← h2]
        exact ⟨hfin, rfl⟩
  | expireRematch gid0 =>
      rw [show (step s (Event.expireRematch gid0)).1.games = s.games from rfl, hg] at hg'
      injection hg' with h2
      rw [← h2]
      exact ⟨hfin, rfl⟩

def c2A : ServerState :=
  runEvents initialState [Event.createGame "na" "G" 0, Event.leaveGame "na" "G"]

def c2B : ServerState := (step c2A (Event.joinGame "nb" "G")).1

/-- C2 counterexample: status transitions are not monotone.  A reachable
    session goes from abandoned back to playing when a new player joins the
    yellow seat of a game whose creator left, and the stale winner set by
    the abandonment survives into the playing state. -/
theorem status_not_monotone :
    (alookup c2A.games "G").map GameState.status = some Status.abandoned ∧
    (alookup c2B.games "G").map GameState.status = some Status.playing ∧
    (alookup c2B.games "G").map GameState.winner
      = some (some (Winner.color Color.yellow)) := by
  decide

def c2Events : List Event :=
  [Event.createGame "fa" "G" 0, Event.joinGame "fb" "G",
   Event.makeMove "fa" "G" 0 Color.red 1, Event.makeMove "fb" "G" 6 Color.yellow 2,
   Event.makeMove "fa" "G" 1 Color.red 3, Event.makeMove "fb" "G" 6 Color.yellow 4,
   Event.makeMove "fa" "G" 2 Color.red 5, Event.makeMove "fb" "G" 6 Color.yellow 6,
   Event.makeMove "fa" "G" 3 Color.red 7]

def c2S : ServerState := runEvents initialState c2Events

def c2Game : GameState := (alookup c2S.games "G").getD noGame

def c2EW : Event := Event.requestRematch "fa" "G" 50

def c2Game' : GameState := (alookup (step c2S c2EW).1.games "G").getD noGame

/-- Witness for C2: after a full game red wins, and a subsequent
    requestRematch leaves the finished status and the winner untouched. -/
theorem finished_stable_witness :
    (alookup c2S.games "G" = some c2Game ∧ c2Game.status = Status.finished ∧
     c2Game.winner = some (Winner.color Color.red) ∧
     alookup (step c2S c2EW).1.games "G" = some c2Game') ∧
    (c2Game'.status = Status.finished ∧ c2Game'.winner = c2Game.winner) :=
  ⟨⟨by decide, by decide, by decide, by decide⟩,
   finished_stable c2S (reachable_run initialState c2Events Reachable.init) c2EW "G"
     c2Game c2Game' (by decide) (by decide) (by decide) not_false⟩
